import Mathlib

/-!
Verification of the telegram-audio-bot repository (src/bot.py and
src/audio_bot.py) against its natural-language specification.

The Python source is shallowly embedded: pure fragments become Lean
functions, remote services (the Telegram transport, the ffmpeg encoder,
the Chirp recognizer and the Gemini models) become oracle parameters,
and byte sizes, millisecond durations and second offsets become Nat.
Strings are Lean String values; Python len on str counts code points,
which matches String data length here.
-/

/-- Python builtin range(start, stop, step) for a positive step, by its
documented semantics: the arithmetic progression start, start+step, ...
of length max(0, ceil((stop-start)/step)). -/
def pyRange (start stop step : Nat) : List Nat :=
  List.range' start ((stop - start + step - 1) / step) step

/-- Python str.join: interleave the separator between the pieces. -/
def pyJoin (sep : String) : List String → String
  | [] => ""
  | [x] => x
  | x :: y :: rest => x ++ sep ++ pyJoin sep (y :: rest)

/-- Python str.strip with no argument: remove leading and trailing
whitespace characters. -/
def pyStrip (s : String) : String :=
  String.mk (((s.data.dropWhile Char.isWhitespace).reverse.dropWhile
    Char.isWhitespace).reverse)

/-- Python str.lower for the ASCII file extensions compared here:
lower-case every character. -/
def pyLower (s : String) : String := String.mk (s.data.map Char.toLower)

/-- The extension part of Python os.path.splitext for a bare file name
(no directory separators): everything from the last dot on, except that
a name whose characters before that dot are all dots has no extension. -/
def splitextExt (name : String) : String :=
  let cs := name.data
  match ((cs.enum.filter (fun p => p.2 = '.')).map Prod.fst).getLast? with
  | none => ""
  | some i => if (cs.take i).all (fun c => c = '.') then "" else String.mk (cs.drop i)

/-! ## Chunked transcriber: transcribe_with_chirp (src/bot.py lines 118-224)

The audio content itself is irrelevant to the control flow; what matters
is the chunk geometry derived from the total duration D in milliseconds
and, per chunk, the outcome of the remote recognize call.  The recognizer
is an oracle from the chunk index to either an error (the exception text)
or a list of results; each result carries its alternatives, and each
alternative a transcript and the list of word start offsets in whole
seconds (the code truncates offset.total_seconds() to int). -/

/-- CHUNK_MS = 55 * 1000 from transcribe_with_chirp. -/
def CHUNK_MS : Nat := 55 * 1000

/-- Start offsets of the chunks: range(0, len(audio), CHUNK_MS). -/
def chunkStarts (D : Nat) : List Nat := pyRange 0 D CHUNK_MS

/-- Chunk list, as half-open millisecond ranges: the pydub slice
audio[i : i + CHUNK_MS] covers [i, min (i + CHUNK_MS) D). -/
def chunkRanges (D : Nat) : List (Nat × Nat) :=
  (chunkStarts D).map (fun s => (s, min (s + CHUNK_MS) D))

/-- numWindows: the number of chunks submitted to the recognizer. -/
def numChunks (D : Nat) : Nat := (chunkStarts D).length

/-- One alternative of a recognizer result: best.transcript and the word
start offsets (seconds within the chunk) of best.words. -/
structure RecogAlt where
  transcript : String
  words : List Nat
deriving DecidableEq

/-- One element of response.results. -/
structure RecogResult where
  alternatives : List RecogAlt
deriving DecidableEq

/-- The loop state of transcribe_with_chirp: all_lines and
last_timestamp_seconds, plus a ghost field markers recording the absolute
second value of every timestamp line that was emitted, in order. -/
structure ChirpState where
  lines : List String
  lastTs : Int
  markers : List Int
deriving DecidableEq

/-- Initial state: all_lines = [], last_timestamp_seconds = -120. -/
def chirpInit : ChirpState := { lines := [], lastTs := -120, markers := [] }

/-- f-string left-pad of seconds to two digits, from f-string 02d. -/
def pad2 (n : Nat) : String := if n < 10 then "0" ++ toString n else toString n

/-- The timestamp line f-string: [mins:secs] with mins = s // 60 and
secs = s % 60 zero-padded to two digits. -/
def tsLine (s : Nat) : String :=
  "[" ++ toString (s / 60) ++ ":" ++ pad2 (s % 60) ++ "]"

/-- Processing of one result of a response inside the chunk loop:
skip when there are no alternatives or the stripped transcript is empty;
otherwise, when word timing is present, emit a timestamp line if the
absolute start second minus last_timestamp_seconds is at least 120; then
append the text line.  The try/except around the offset arithmetic never
fires in this total model. -/
def stepResult (offSecs : Nat) (st : ChirpState) (r : RecogResult) : ChirpState :=
  match r.alternatives with
  | [] => st
  | best :: _ =>
    if pyStrip best.transcript = "" then st
    else
      match best.words with
      | [] => { st with lines := st.lines ++ [pyStrip best.transcript] }
      | w :: _ =>
        let startSecs : Int := ((offSecs + w : Nat) : Int)
        if 120 ≤ startSecs - st.lastTs then
          { lines := st.lines ++ [tsLine (offSecs + w), pyStrip best.transcript],
            lastTs := startSecs,
            markers := st.markers ++ [startSecs] }
        else { st with lines := st.lines ++ [pyStrip best.transcript] }

/-- One iteration of the chunk loop: a failed recognize call appends the
inline placeholder line and continues; a successful one folds its results
through stepResult at chunk_offset_secs = idx * 55. -/
def stepChunk (idx : Nat) (st : ChirpState) (o : Except String (List RecogResult)) :
    ChirpState :=
  match o with
  | .error e =>
    { st with lines := st.lines ++ ["[chunk " ++ toString (idx + 1) ++ " failed: " ++ e ++ "]"] }
  | .ok results => results.foldl (stepResult (idx * 55)) st

/-- The enumerate loop over the chunk outcomes, carrying idx. -/
def chirpRunAux (idx : Nat) (st : ChirpState) :
    List (Except String (List RecogResult)) → ChirpState
  | [] => st
  | o :: rest => chirpRunAux (idx + 1) (stepChunk idx st o) rest

/-- The whole chunk loop of transcribe_with_chirp from the initial state. -/
def chirpRun (outcomes : List (Except String (List RecogResult))) : ChirpState :=
  chirpRunAux 0 chirpInit outcomes

/-- transcribe_with_chirp as a function of the duration and the
recognizer oracle: run the loop over one outcome per chunk and join the
lines, or return the no-speech sentinel when no line was produced. -/
def transcribeWithChirp (D : Nat)
    (recognize : Nat → Except String (List RecogResult)) : String :=
  let st := chirpRun ((List.range (numChunks D)).map recognize)
  if st.lines = [] then "No speech detected in audio" else pyJoin "\n" st.lines

/-- A result qualifies for the timestamp check when it has an
alternative, its stripped transcript is non-empty, and word timing is
present; its value is the absolute start second chunk offset + word
offset.  This mirrors exactly the guards on the marker emission path. -/
def qualOffset (offSecs : Nat) (r : RecogResult) : Option Int :=
  match r.alternatives with
  | [] => none
  | best :: _ =>
    if pyStrip best.transcript = "" then none
    else
      match best.words with
      | [] => none
      | w :: _ => some ((offSecs + w : Nat) : Int)

/-- The qualifying absolute offsets contributed by one chunk outcome. -/
def qualChunk (idx : Nat) (o : Except String (List RecogResult)) : List Int :=
  match o with
  | .error _ => []
  | .ok results => results.filterMap (qualOffset (idx * 55))

/-- All qualifying absolute offsets of an outcome sequence, in the order
the loop meets them. -/
def qualOffsetsAux (idx : Nat) : List (Except String (List RecogResult)) → List Int
  | [] => []
  | o :: rest => qualChunk idx o ++ qualOffsetsAux (idx + 1) rest

/-- Qualifying offsets of the whole run. -/
def qualOffsets (outcomes : List (Except String (List RecogResult))) : List Int :=
  qualOffsetsAux 0 outcomes

/-- A result carries word-level timing when its first alternative has a
non-empty word list (regardless of its transcript text). -/
def carriesTiming (r : RecogResult) : Bool :=
  match r.alternatives with
  | [] => false
  | best :: _ => !best.words.isEmpty

/-! ## Delivery splitter: send_long_text (src/bot.py lines 275-292)

Texts are modelled as lists of characters, matching Python str indexing
and len (code points).  The function returns the list of texts passed to
reply_text, in order. -/

/-- LIMIT = 4000 from send_long_text. -/
def TEXT_LIMIT : Nat := 4000

/-- The continuation marker appended to every non-final body chunk:
the f-string of two newlines and _(continued part)_. -/
def contMarker (part : Nat) : List Char :=
  ("\n\n_(continued " ++ toString part ++ ")_").data

/-- The while loop of send_long_text: peel LIMIT characters at a time,
appending the continuation marker when text remains. -/
def sendChunks (remaining : List Char) (part : Nat) : List (List Char) :=
  if h : remaining = [] then []
  else
    (remaining.take TEXT_LIMIT ++
       if remaining.drop TEXT_LIMIT = [] then [] else contMarker part) ::
      sendChunks (remaining.drop TEXT_LIMIT) (part + 1)
termination_by remaining.length
decreasing_by
  have : remaining.length ≠ 0 := by simpa using h
  simp only [List.length_drop]
  simp only [TEXT_LIMIT]
  omega

/-- send_long_text: a single message when header + body fits in LIMIT,
otherwise the header alone followed by the body chunks. -/
def sendLongText (header body : List Char) : List (List Char) :=
  if (header ++ body).length ≤ TEXT_LIMIT then [header ++ body]
  else header :: sendChunks body 1

/-- Remove a trailing continuation marker for the given part number, if
present. -/
def stripMarker (part : Nat) (seg : List Char) : List Char :=
  if seg.drop (seg.length - (contMarker part).length) = contMarker part then
    seg.take (seg.length - (contMarker part).length)
  else seg

/-- Strip the continuation marker from every segment except the last
(the loop appends a marker exactly to the non-final segments). -/
def stripSegs (part : Nat) : List (List Char) → List (List Char)
  | [] => []
  | [s] => [s]
  | s :: t :: rest => stripMarker part s :: stripSegs (part + 1) (t :: rest)

/-! ## Gemini model fallback loops (src/bot.py lines 83-115 and 249-272)

A backend call is an oracle from the model identifier to either the
response text or the exception text.  The code strips the response text
before returning it.  On exhaustion the aggregate error carries the
last_error accumulator (None when no model was even tried). -/

/-- candidate_models of transcribe_with_gemini_files. -/
def transcriptionModels : List String :=
  ["gemini-1.5-pro", "gemini-2.0-flash", "gemini-1.5-flash"]

/-- candidate_models of summarize_with_gemini. -/
def summaryModels : List String :=
  ["gemini-2.0-flash-lite", "gemini-2.0-flash-001", "gemini-2.5-flash", "gemini-2.5-pro"]

/-- The shared try-each-model loop shape: return the stripped text of the
first successful call, remember the last error, and fail with it when the
list is exhausted. -/
def tryModelsLoop (call : String → Except String String) :
    List String → Option String → Except (Option String) String
  | [], lastErr => .error lastErr
  | m :: rest, _ =>
    match call m with
    | .ok t => .ok (pyStrip t)
    | .error e => tryModelsLoop call rest (some e)

/-- The model loop of summarize_with_gemini (the aggregate RuntimeError
is modelled as the error value carrying last_error). -/
def summarizeWithGemini (call : String → Except String String) :
    Except (Option String) String :=
  tryModelsLoop call summaryModels none

/-- The model loop of transcribe_with_gemini_files, step 3: same shape,
with the break / None-check-after-loop structure folded into the loop
(the Gemini file cleanup between loop and check has no effect on the
returned value). -/
def transcribeWithGeminiModels (call : String → Except String String) :
    Except (Option String) String :=
  tryModelsLoop call transcriptionModels none

/-- The text of the first successful call, scanning in order. -/
def firstOk (call : String → Except String String) : List String → Option String
  | [] => none
  | m :: rest =>
    match call m with
    | .ok t => some t
    | .error _ => firstOk call rest

/-- The error of the last model in the list, when that call fails. -/
def lastCallError (call : String → Except String String) (ms : List String) :
    Option String :=
  match ms.getLast? with
  | none => none
  | some m =>
    match call m with
    | .ok _ => none
    | .error e => some e

/-! ## Tiered encoder and delivery (handle_audio, src/bot.py lines 295-443)

The encoder and the transport are oracles.  For tier 1 (128k) and tier 2
(64k mono) the oracle gives the byte size of the full-file export, or
none when the export call raises; a separate flag tells whether
reply_document succeeds for that tier.  The terminal split re-encodes
the two halves at the tier 2 settings; the claims quantify over the runs
in which those part exports and sends succeed (a failure there would
abort the handler through its outer except, delivering nothing).
Each delivered artifact records its byte size, the static part of its
caption (the dynamic size/duration figures are elided), the half-open
millisecond range of the source it covers, its encoder settings and the
tier that produced it. -/

/-- One MB as used by the size computations (1024 * 1024 bytes). -/
def MB : Nat := 1024 * 1024

/-- The 45 MB delivery ceiling of the tier 1 size check: the float
comparison size / (1024*1024) > 45 is exactly size > 45 MB in bytes. -/
def DELIVERY_CEILING : Nat := 45 * MB

/-- Encoder settings of one export call. -/
structure EncSpec where
  bitrateKbps : Nat
  sampleRateHz : Nat
  forcedMono : Bool
deriving DecidableEq

/-- Tier 1: bitrate 128k, -ar 44100, native channels. -/
def tier1Spec : EncSpec := { bitrateKbps := 128, sampleRateHz := 44100, forcedMono := false }

/-- Tier 2 and the terminal split: bitrate 64k, -ar 44100, -ac 1. -/
def tier2Spec : EncSpec := { bitrateKbps := 64, sampleRateHz := 44100, forcedMono := true }

/-- One document handed to reply_document. -/
structure Artifact where
  sizeBytes : Nat
  captionTag : String
  startMs : Nat
  endMs : Nat
  enc : EncSpec
  tier : Nat
deriving DecidableEq

/-- The oracle for one handle_audio run: export outcomes and sizes, and
transport acceptance per tier. -/
structure EncOracle where
  t1 : Option Nat
  t2 : Option Nat
  p1Size : Nat
  p2Size : Nat
  sendT1 : Bool
  sendT2 : Bool
deriving DecidableEq

/-- What the run produced: the delivered artifacts in order, and the
half-open millisecond range of the audio behind transcription_mp3_path. -/
structure HandleResult where
  delivered : List Artifact
  transcriptionRangeMs : Nat × Nat
deriving DecidableEq

/-- The tier 1 document: the full recording at 128k. -/
def tier1Artifact (D sz : Nat) : Artifact :=
  { sizeBytes := sz, captionTag := "High Quality MP3 (128k)", startMs := 0, endMs := D,
    enc := tier1Spec, tier := 1 }

/-- The tier 2 document: the full recording at 64k mono. -/
def tier2Artifact (D sz : Nat) : Artifact :=
  { sizeBytes := sz, captionTag := "Compressed MP3 (64k mono)", startMs := 0, endMs := D,
    enc := tier2Spec, tier := 2 }

/-- The first half document of the terminal split, re-encoded at the
tier 2 settings: audio[:half] with half = duration_ms // 2. -/
def part1Artifact (D sz : Nat) : Artifact :=
  { sizeBytes := sz, captionTag := "Part 1/2", startMs := 0, endMs := D / 2,
    enc := tier2Spec, tier := 3 }

/-- The second half document of the terminal split: audio[half:]. -/
def part2Artifact (D sz : Nat) : Artifact :=
  { sizeBytes := sz, captionTag := "Part 2/2", startMs := D / 2, endMs := D,
    enc := tier2Spec, tier := 3 }

/-- The terminal split (lines 402-443): half = duration_ms // 2, export
audio[:half] and audio[half:] at the tier 2 settings, deliver both parts,
then use the full compressed file for transcription when it exists and
fall back to the first half when the tier 2 export had failed. -/
def tier3Split (D : Nat) (o : EncOracle) (compressedExists : Bool) : HandleResult :=
  { delivered := [part1Artifact D o.p1Size, part2Artifact D o.p2Size],
    transcriptionRangeMs := if compressedExists then (0, D) else (0, D / 2) }

/-- Tier 2 (lines 381-399): export the full file at 64k mono (no size
check), deliver it if the transport accepts; on export failure or send
failure fall through to the terminal split.  The compressed file exists
for the split fallback exactly when the export succeeded. -/
def tier2Attempt (D : Nat) (o : EncOracle) : HandleResult :=
  match o.t2 with
  | some sz =>
    if o.sendT2 then
      { delivered := [tier2Artifact D sz], transcriptionRangeMs := (0, D) }
    else tier3Split D o true
  | none => tier3Split D o false

/-- The whole fallback ladder of handle_audio (lines 357-443): tier 1
exports at 128k, raises when the size exceeds 45 MB, delivers when the
transport accepts; any failure falls through to tier 2. -/
def handleAudioLadder (D : Nat) (o : EncOracle) : HandleResult :=
  match o.t1 with
  | some sz =>
    if DELIVERY_CEILING < sz then tier2Attempt D o
    else if o.sendT1 then
      { delivered := [tier1Artifact D sz], transcriptionRangeMs := (0, D) }
    else tier2Attempt D o
  | none => tier2Attempt D o

/-! ## Message dispatch (src/bot.py lines 299-316, src/audio_bot.py lines 32-52)

A message is abstracted to the three attributes the dispatch looks at.
The effect trace of a handler run is [] exactly when no audio file was
identified; otherwise it begins with the status reply and continues with
whatever the rest of the handler does, abstracted as a parameter. -/

/-- SUPPORTED_FORMATS of src/bot.py (includes .mp3). -/
def SUPPORTED_FORMATS_bot : List String :=
  [".m4a", ".ogg", ".opus", ".wav", ".aac", ".flac", ".wma", ".mp3"]

/-- SUPPORTED_FORMATS of src/audio_bot.py (no .mp3). -/
def SUPPORTED_FORMATS_audioBot : List String :=
  [".m4a", ".ogg", ".opus", ".wav", ".aac", ".flac", ".wma"]

/-- The attributes of an incoming message that the dispatch inspects:
whether it is a voice message, whether it is an audio message, and the
file name of an attached document when one is present. -/
structure TgMessage where
  hasVoice : Bool
  hasAudio : Bool
  document : Option String
deriving DecidableEq

/-- Observable actions of a handler run. -/
inductive BotEffect
  | replyText (s : String)
  | download
  | convert
  | sendDocument (captionTag : String)
deriving DecidableEq

/-- The audio_file selection of bot.py handle_audio: voice, then audio,
then a document whose lowercased extension is in SUPPORTED_FORMATS. -/
def audioChosenBot (m : TgMessage) : Bool :=
  if m.hasVoice then true
  else if m.hasAudio then true
  else
    match m.document with
    | some name => SUPPORTED_FORMATS_bot.contains (pyLower (splitextExt name))
    | none => false

/-- The audio_file selection of audio_bot.py handle_audio. -/
def audioChosenAudioBot (m : TgMessage) : Bool :=
  if m.hasVoice then true
  else if m.hasAudio then true
  else
    match m.document with
    | some name => SUPPORTED_FORMATS_audioBot.contains (pyLower (splitextExt name))
    | none => false

/-- Effect trace of bot.py handle_audio: return with no action when no
audio file was identified; otherwise the status reply comes first and
rest abstracts the remainder of the handler (download, conversion,
delivery, transcription). -/
def handleAudioEffectsBot (m : TgMessage) (rest : List BotEffect) : List BotEffect :=
  if audioChosenBot m then BotEffect.replyText "Converting to MP3..." :: rest
  else []

/-- Effect trace of audio_bot.py handle_audio, same shape. -/
def handleAudioEffectsAudioBot (m : TgMessage) (rest : List BotEffect) : List BotEffect :=
  if audioChosenAudioBot m then BotEffect.replyText "Converting to MP3... Please wait." :: rest
  else []

/-! ## Theorems -/

/-- C1: for every duration D (ms) and window length W = CHUNK_MS =
55000 ms, the chunked transcriber produces exactly ceil(D/W) windows;
window i starts at i*W, the windows tile [0, D) contiguously (each
window ends where the next starts, the first starts at 0, the last ends
at D), every window except the last has length W, and the last window
has length D - (numWindows - 1) * W. -/
theorem C1_window_tiling (D : Nat) :
    numChunks D = (D + CHUNK_MS - 1) / CHUNK_MS
    ∧ (∀ i (h : i < (chunkRanges D).length), ((chunkRanges D).get ⟨i, h⟩).1 = i * CHUNK_MS)
    ∧ (∀ i (h : i < (chunkRanges D).length), i + 1 < (chunkRanges D).length →
        ((chunkRanges D).get ⟨i, h⟩).2 - ((chunkRanges D).get ⟨i, h⟩).1 = CHUNK_MS)
    ∧ (∀ i (h : i < (chunkRanges D).length) (h2 : i + 1 < (chunkRanges D).length),
        ((chunkRanges D).get ⟨i, h⟩).2 = ((chunkRanges D).get ⟨i + 1, h2⟩).1)
    ∧ (∀ h : 0 < (chunkRanges D).length, ((chunkRanges D).get ⟨0, h⟩).1 = 0)
    ∧ (∀ i (h : i < (chunkRanges D).length), i + 1 = (chunkRanges D).length →
        ((chunkRanges D).get ⟨i, h⟩).2 = D
        ∧ ((chunkRanges D).get ⟨i, h⟩).2 - ((chunkRanges D).get ⟨i, h⟩).1
            = D - ((chunkRanges D).length - 1) * CHUNK_MS) := by
  have hlen : (chunkRanges D).length = (D + CHUNK_MS - 1) / CHUNK_MS := by
    simp [chunkRanges, chunkStarts, pyRange, CHUNK_MS]
  have hget : ∀ i (h : i < (chunkRanges D).length),
      (chunkRanges D).get ⟨i, h⟩ = (i * CHUNK_MS, min (i * CHUNK_MS + CHUNK_MS) D) := by
    intro i h
    simp [chunkRanges, chunkStarts, pyRange, List.get_eq_getElem, List.getElem_map,
      List.getElem_range', Nat.mul_comm]
  refine ⟨by simp [numChunks, chunkStarts, pyRange, chunkRanges, CHUNK_MS], ?_, ?_, ?_, ?_, ?_⟩
  · intro i h; rw [hget i h]
  · intro i h hlt
    rw [hget i h]
    simp only
    rw [hlen] at h hlt
    simp only [CHUNK_MS] at *
    omega
  · intro i h h2
    rw [hget i h, hget (i+1) h2]
    simp only
    rw [hlen] at h h2
    simp only [CHUNK_MS] at *
    omega
  · intro h; rw [hget 0 h]; simp
  · intro i h hlast
    rw [hget i h]
    simp only
    rw [hlen] at h
    rw [hlen] at hlast
    simp only [CHUNK_MS] at *
    constructor <;> omega

/-- Witness for C1 at the 185-second scenario of the spec: 185000 ms
yield ceil(185000/55000) = 4 windows and window 3 starts at 165000 ms. -/
theorem C1_window_tiling_witness :
    numChunks 185000 = (185000 + CHUNK_MS - 1) / CHUNK_MS
    ∧ ((chunkRanges 185000).get ⟨3, by decide⟩).1 = 3 * CHUNK_MS :=
  ⟨(C1_window_tiling 185000).1, (C1_window_tiling 185000).2.1 3 (by decide)⟩

/-- Helper for C7: a non-empty remainder always yields at least one
segment. -/
theorem sendChunks_ne_nil (remaining : List Char) (part : Nat) (h : remaining ≠ []) :
    sendChunks remaining part ≠ [] := by
  rw [sendChunks]
  simp [h]

/-- Helper for C7: stripping the continuation marker it carries returns
a segment to its chunk. -/
theorem stripMarker_append (chunk : List Char) (part : Nat) :
    stripMarker part (chunk ++ contMarker part) = chunk := by
  unfold stripMarker
  have hlen : (chunk ++ contMarker part).length - (contMarker part).length = chunk.length := by
    simp
  rw [hlen, List.drop_left, if_pos rfl, List.take_left]

/-- Helper for C7: the loop emits nothing when nothing remains. -/
theorem sendChunks_nil_eq (part : Nat) : sendChunks [] part = [] := by
  rw [sendChunks]
  rw [dif_pos rfl]

/-- Helper for C7: stripping the continuation markers from the body
segments and concatenating recovers the remaining text exactly. -/
theorem sendChunks_roundtrip (remaining : List Char) (part : Nat) :
    (stripSegs part (sendChunks remaining part)).flatten = remaining := by
  induction remaining, part using sendChunks.induct with
  | case1 part => rw [sendChunks_nil_eq]; rfl
  | case2 remaining part h ih =>
    rw [sendChunks]
    rw [dif_neg h]
    by_cases hrest : remaining.drop TEXT_LIMIT = []
    · have htake : remaining.take TEXT_LIMIT = remaining := by
        have hlen : remaining.length - TEXT_LIMIT = 0 := by
          have := congrArg List.length hrest
          simpa using this
        exact List.take_of_length_le (by omega)
      rw [if_pos hrest, hrest, sendChunks_nil_eq]
      show (stripSegs part [remaining.take TEXT_LIMIT ++ []]).flatten = remaining
      rw [List.append_nil, htake]
      simp [stripSegs]
    · rw [if_neg hrest]
      obtain ⟨s, rest2, hcons⟩ : ∃ s rest2,
          sendChunks (remaining.drop TEXT_LIMIT) (part + 1) = s :: rest2 := by
        cases hsc : sendChunks (remaining.drop TEXT_LIMIT) (part + 1) with
        | nil => exact absurd hsc (sendChunks_ne_nil _ _ hrest)
        | cons s r => exact ⟨s, r, rfl⟩
      rw [hcons]
      rw [hcons] at ih
      simp only [stripSegs, List.flatten_cons]
      rw [stripMarker_append]
      rw [ih]
      exact List.take_append_drop TEXT_LIMIT remaining

/-- Helper for C7: every body segment holds at most LIMIT characters of
body plus its own continuation marker. -/
theorem sendChunks_seg_le (remaining : List Char) (part : Nat) :
    ∀ i (h : i < (sendChunks remaining part).length),
      ((sendChunks remaining part).get ⟨i, h⟩).length
        ≤ TEXT_LIMIT + (contMarker (part + i)).length := by
  induction remaining, part using sendChunks.induct with
  | case1 part =>
    intro i hi
    rw [sendChunks_nil_eq] at hi
    simp at hi
  | case2 remaining part h ih =>
    intro i hi
    have hrw : sendChunks remaining part
        = (remaining.take TEXT_LIMIT ++
             if remaining.drop TEXT_LIMIT = [] then [] else contMarker part) ::
            sendChunks (remaining.drop TEXT_LIMIT) (part + 1) := by
      rw [sendChunks]
      rw [dif_neg h]
    cases i with
    | zero =>
      simp only [hrw, List.get_eq_getElem, List.getElem_cons_zero, Nat.add_zero]
      have htake : (remaining.take TEXT_LIMIT).length ≤ TEXT_LIMIT := by simp
      by_cases hrest : remaining.drop TEXT_LIMIT = []
      · rw [if_pos hrest, List.append_nil]
        omega
      · rw [if_neg hrest, List.length_append]
        omega
    | succ j =>
      have hj : j < (sendChunks (remaining.drop TEXT_LIMIT) (part + 1)).length := by
        rw [hrw] at hi
        simpa using hi
      have hstep := ih j hj
      have heq : ((sendChunks remaining part).get ⟨j + 1, hi⟩)
          = ((sendChunks (remaining.drop TEXT_LIMIT) (part + 1)).get ⟨j, hj⟩) := by
        simp only [hrw, List.get_eq_getElem, List.getElem_cons_succ]
      rw [heq]
      have harith : part + 1 + j = part + (j + 1) := by omega
      rw [harith] at hstep
      exact hstep

/-- C7 (amended): when header plus body fits within the limit the
splitter emits the single segment header ++ body; otherwise it emits the
header as its own first segment followed by the body chunks, stripping
the per-segment continuation markers from those chunks and concatenating
reconstructs the body exactly (round-trip), and every body segment is at
most the limit plus the length of its own continuation marker.  (The
original bound of at most the limit per segment is refuted by
C7_counterexample: the marker is appended after the limit-sized cut.) -/
theorem C7_amended (header body : List Char) :
    ((header ++ body).length ≤ TEXT_LIMIT →
      sendLongText header body = [header ++ body])
    ∧ (TEXT_LIMIT < (header ++ body).length →
      sendLongText header body = header :: sendChunks body 1
      ∧ (stripSegs 1 (sendChunks body 1)).flatten = body
      ∧ ∀ i (h : i < (sendChunks body 1).length),
          ((sendChunks body 1).get ⟨i, h⟩).length
            ≤ TEXT_LIMIT + (contMarker (1 + i)).length) := by
  constructor
  · intro hle
    rw [sendLongText, if_pos hle]
  · intro hgt
    refine ⟨?_, sendChunks_roundtrip body 1, ?_⟩
    · rw [sendLongText, if_neg (by omega)]
    · intro i h
      have := sendChunks_seg_le body 1 i h
      simpa [Nat.add_comm] using this

/-- Witness for C7 (amended) at a concrete small input: h plus b fits in
one segment. -/
theorem C7_amended_witness :
    (['h'] ++ ['b']).length ≤ TEXT_LIMIT
    ∧ sendLongText ['h'] ['b'] = [['h'] ++ ['b']] :=
  ⟨by decide, (C7_amended ['h'] ['b']).1 (by decide)⟩

/-- Counterexample to C7 as stated: with header H and a body of 4001
characters, the first body segment is 4000 characters plus the 17
character continuation marker, 4017 > 4000 = LIMIT, so not every emitted
segment is within the limit (in characters, hence also in bytes). -/
theorem C7_counterexample :
    ¬ (∀ seg ∈ sendLongText ['H'] (List.replicate 4001 'a'), seg.length ≤ TEXT_LIMIT) := by
  intro hall
  have hbody : (List.replicate 4001 'a').drop TEXT_LIMIT = ['a'] := by
    rw [List.drop_replicate]
    norm_num [TEXT_LIMIT]
  have hne : (List.replicate 4001 'a') ≠ [] := by
    apply List.ne_nil_of_length_pos
    rw [List.length_replicate]
    norm_num
  have htk : (List.replicate 4001 'a').take TEXT_LIMIT = List.replicate 4000 'a' := by
    rw [List.take_replicate]
    norm_num [TEXT_LIMIT]
  have hs2 : sendChunks ['a'] 2 = [['a']] := by
    rw [sendChunks]
    rw [dif_neg (by decide)]
    rw [show List.drop TEXT_LIMIT ['a'] = [] from by decide]
    rw [show List.take TEXT_LIMIT ['a'] = ['a'] from by decide]
    rw [if_pos rfl, sendChunks_nil_eq, List.append_nil]
  have hs1 : sendChunks (List.replicate 4001 'a') 1
      = (List.replicate 4000 'a' ++ contMarker 1) :: sendChunks ['a'] 2 := by
    rw [sendChunks, dif_neg hne, hbody, htk]
    rw [if_neg (by decide)]
  have hfull : TEXT_LIMIT < (['H'] ++ List.replicate 4001 'a').length := by
    rw [List.length_append, List.length_replicate]
    norm_num [TEXT_LIMIT]
  have hlist : sendLongText ['H'] (List.replicate 4001 'a')
      = ['H'] :: (List.replicate 4000 'a' ++ contMarker 1) :: [['a']] := by
    rw [sendLongText, if_neg (by omega)]
    rw [hs1, hs2]
  have hmem : (List.replicate 4000 'a' ++ contMarker 1)
      ∈ sendLongText ['H'] (List.replicate 4001 'a') := by
    rw [hlist]
    exact List.mem_cons_of_mem _ (List.mem_cons_self _ _)
  have hle := hall _ hmem
  have hm : (contMarker 1).length = 17 := by decide
  have hlen : (List.replicate 4000 'a' ++ contMarker 1).length = 4017 := by
    rw [List.length_append, List.length_replicate, hm]
  rw [hlen] at hle
  norm_num [TEXT_LIMIT] at hle


/-- Helper for C2: one result step preserves the marker invariant (the
emitted markers are 120 apart pairwise, and last_timestamp_seconds is
the last emitted marker, or the -120 sentinel when none exists yet). -/
theorem stepResult_minv (off : Nat) (st : ChirpState) (r : RecogResult)
    (hchain : List.Chain' (fun a b => a + 120 ≤ b) st.markers)
    (hlast : st.markers.getLast?.getD (-120) = st.lastTs) :
    List.Chain' (fun a b => a + 120 ≤ b) (stepResult off st r).markers
    ∧ (stepResult off st r).markers.getLast?.getD (-120) = (stepResult off st r).lastTs := by
  obtain ⟨alts⟩ := r
  cases alts with
  | nil => exact ⟨hchain, hlast⟩
  | cons best rest =>
    simp only [stepResult]
    by_cases htxt : pyStrip best.transcript = ""
    · rw [if_pos htxt]
      exact ⟨hchain, hlast⟩
    · rw [if_neg htxt]
      cases hws : best.words with
      | nil => exact ⟨hchain, hlast⟩
      | cons w ws =>
        dsimp only
        by_cases hcond : (120 : Int) ≤ ((off + w : Nat) : Int) - st.lastTs
        · rw [if_pos hcond]
          constructor
          · rw [List.chain'_append]
            refine ⟨hchain, List.chain'_singleton _, ?_⟩
            intro x hx y hy
            simp only [List.head?_cons, Option.mem_def, Option.some.injEq] at hy
            subst hy
            have hne : st.markers ≠ [] := by
              intro hnil
              rw [hnil] at hx
              simp at hx
            have : st.markers.getLast? = some x := hx
            rw [this] at hlast
            simp at hlast
            omega
          · simp
        · rw [if_neg hcond]
          exact ⟨hchain, hlast⟩

/-- Helper for C2: the fold over the results of one response preserves
the marker invariant. -/
theorem foldResults_minv (off : Nat) (rs : List RecogResult) :
    ∀ (st : ChirpState),
      List.Chain' (fun a b => a + 120 ≤ b) st.markers →
      st.markers.getLast?.getD (-120) = st.lastTs →
      List.Chain' (fun a b => a + 120 ≤ b) (rs.foldl (stepResult off) st).markers
      ∧ (rs.foldl (stepResult off) st).markers.getLast?.getD (-120)
          = (rs.foldl (stepResult off) st).lastTs := by
  induction rs with
  | nil => intro st h1 h2; exact ⟨h1, h2⟩
  | cons r rest ih =>
    intro st h1 h2
    have := stepResult_minv off st r h1 h2
    exact ih (stepResult off st r) this.1 this.2

/-- Helper for C2: one chunk iteration preserves the marker invariant. -/
theorem stepChunk_minv (idx : Nat) (st : ChirpState) (o : Except String (List RecogResult))
    (h1 : List.Chain' (fun a b => a + 120 ≤ b) st.markers)
    (h2 : st.markers.getLast?.getD (-120) = st.lastTs) :
    List.Chain' (fun a b => a + 120 ≤ b) (stepChunk idx st o).markers
    ∧ (stepChunk idx st o).markers.getLast?.getD (-120) = (stepChunk idx st o).lastTs := by
  cases o with
  | error e => exact ⟨h1, h2⟩
  | ok results => exact foldResults_minv (idx * 55) results st h1 h2

/-- Helper for C2: the whole chunk loop preserves the marker invariant. -/
theorem chirpRunAux_minv (outcomes : List (Except String (List RecogResult))) :
    ∀ (idx : Nat) (st : ChirpState),
      List.Chain' (fun a b => a + 120 ≤ b) st.markers →
      st.markers.getLast?.getD (-120) = st.lastTs →
      List.Chain' (fun a b => a + 120 ≤ b) (chirpRunAux idx st outcomes).markers
      ∧ (chirpRunAux idx st outcomes).markers.getLast?.getD (-120)
          = (chirpRunAux idx st outcomes).lastTs := by
  induction outcomes with
  | nil => intro idx st h1 h2; exact ⟨h1, h2⟩
  | cons o rest ih =>
    intro idx st h1 h2
    have := stepChunk_minv idx st o h1 h2
    exact ih (idx + 1) (stepChunk idx st o) this.1 this.2

-- markers are only appended
/-- Helper for C2: a result step only ever appends to the marker list. -/
theorem stepResult_markers_append (off : Nat) (st : ChirpState) (r : RecogResult) :
    ∃ t, (stepResult off st r).markers = st.markers ++ t := by
  obtain ⟨alts⟩ := r
  cases alts with
  | nil => exact ⟨[], by simp [stepResult]⟩
  | cons best rest =>
    simp only [stepResult]
    by_cases htxt : pyStrip best.transcript = ""
    · rw [if_pos htxt]; exact ⟨[], by simp⟩
    · rw [if_neg htxt]
      cases hws : best.words with
      | nil => exact ⟨[], by simp⟩
      | cons w ws =>
        dsimp only
        by_cases hcond : (120 : Int) ≤ ((off + w : Nat) : Int) - st.lastTs
        · rw [if_pos hcond]
          exact ⟨[((off + w : Nat) : Int)], rfl⟩
        · rw [if_neg hcond]; exact ⟨[], by simp⟩

/-- Helper for C2: a response fold only ever appends to the marker list. -/
theorem foldResults_markers_append (off : Nat) (rs : List RecogResult) :
    ∀ (st : ChirpState), ∃ t, (rs.foldl (stepResult off) st).markers = st.markers ++ t := by
  induction rs with
  | nil => intro st; exact ⟨[], by simp⟩
  | cons r rest ih =>
    intro st
    obtain ⟨t1, h1⟩ := stepResult_markers_append off st r
    obtain ⟨t2, h2⟩ := ih (stepResult off st r)
    exact ⟨t1 ++ t2, by rw [List.foldl_cons, h2, h1, List.append_assoc]⟩

/-- Helper for C2: a chunk iteration only ever appends to the marker
list. -/
theorem stepChunk_markers_append (idx : Nat) (st : ChirpState)
    (o : Except String (List RecogResult)) :
    ∃ t, (stepChunk idx st o).markers = st.markers ++ t := by
  cases o with
  | error e => exact ⟨[], by simp [stepChunk]⟩
  | ok results => exact foldResults_markers_append (idx * 55) results st

/-- Helper for C2: the chunk loop only ever appends to the marker list. -/
theorem chirpRunAux_markers_append (outcomes : List (Except String (List RecogResult))) :
    ∀ (idx : Nat) (st : ChirpState),
      ∃ t, (chirpRunAux idx st outcomes).markers = st.markers ++ t := by
  induction outcomes with
  | nil => intro idx st; exact ⟨[], by simp [chirpRunAux]⟩
  | cons o rest ih =>
    intro idx st
    obtain ⟨t1, h1⟩ := stepChunk_markers_append idx st o
    obtain ⟨t2, h2⟩ := ih (idx + 1) (stepChunk idx st o)
    exact ⟨t1 ++ t2, by rw [chirpRunAux, h2, h1, List.append_assoc]⟩

-- head characterization from the empty initial state
/-- Helper for C2: from the sentinel state, a result either does not
qualify and leaves markers empty and the sentinel in place, or qualifies
and emits exactly its absolute offset (the sentinel -120 makes the 120
threshold hold for every absolute offset, which is nonnegative). -/
theorem stepResult_empty_cases (off : Nat) (st : ChirpState) (r : RecogResult)
    (hm : st.markers = []) (hl : st.lastTs = -120) :
    (qualOffset off r = none
      ∧ (stepResult off st r).markers = [] ∧ (stepResult off st r).lastTs = -120)
    ∨ (∃ s, qualOffset off r = some s
      ∧ (stepResult off st r).markers = [s] ∧ (stepResult off st r).lastTs = s) := by
  obtain ⟨alts⟩ := r
  cases alts with
  | nil => exact Or.inl ⟨rfl, by simpa [stepResult] using ⟨hm, hl⟩⟩
  | cons best rest =>
    simp only [stepResult, qualOffset]
    by_cases htxt : pyStrip best.transcript = ""
    · simp only [if_pos htxt]
      exact Or.inl ⟨trivial, hm, hl⟩
    · simp only [if_neg htxt]
      cases hws : best.words with
      | nil => exact Or.inl ⟨rfl, hm, hl⟩
      | cons w ws =>
        dsimp only
        have hcond : (120 : Int) ≤ ((off + w : Nat) : Int) - st.lastTs := by
          rw [hl]
          have : (0 : Int) ≤ ((off + w : Nat) : Int) := Int.natCast_nonneg _
          omega
        simp only [if_pos hcond]
        refine Or.inr ⟨((off + w : Nat) : Int), rfl, ?_, rfl⟩
        rw [hm]
        rfl

/-- Helper for C2: from the sentinel state, the first marker of a
response fold is the first qualifying offset of its results. -/
theorem foldResults_empty_head (off : Nat) (rs : List RecogResult) :
    ∀ (st : ChirpState), st.markers = [] → st.lastTs = -120 →
      (rs.foldl (stepResult off) st).markers.head?
          = (rs.filterMap (qualOffset off)).head?
      ∧ ((rs.foldl (stepResult off) st).markers = []
          → (rs.foldl (stepResult off) st).lastTs = -120) := by
  induction rs with
  | nil =>
    intro st hm hl
    refine ⟨?_, fun _ => hl⟩
    rw [List.foldl_nil, List.filterMap_nil, hm]
  | cons r rest ih =>
    intro st hm hl
    rw [List.foldl_cons]
    rcases stepResult_empty_cases off st r hm hl with ⟨hq, hm2, hl2⟩ | ⟨s, hq, hm2, hl2⟩
    · rw [List.filterMap_cons, hq]
      exact ih (stepResult off st r) hm2 hl2
    · obtain ⟨t, ht⟩ := foldResults_markers_append off rest (stepResult off st r)
      constructor
      · rw [ht, hm2]
        simp [List.filterMap_cons, hq]
      · intro hcontra
        rw [ht, hm2] at hcontra
        simp at hcontra




/-- Helper for C2: from the sentinel state, the first marker of a chunk
iteration is the first qualifying offset of that chunk. -/
theorem stepChunk_empty_head (idx : Nat) (st : ChirpState)
    (o : Except String (List RecogResult)) (hm : st.markers = []) (hl : st.lastTs = -120) :
    (stepChunk idx st o).markers.head? = (qualChunk idx o).head?
    ∧ ((stepChunk idx st o).markers = [] → (stepChunk idx st o).lastTs = -120) := by
  cases o with
  | error e =>
    refine ⟨?_, fun _ => hl⟩
    simp [stepChunk, qualChunk, hm]
  | ok results =>
    exact foldResults_empty_head (idx * 55) results st hm hl

/-- Helper for C2: from the sentinel state, the first marker of the
whole loop is the first qualifying offset of the outcome sequence. -/
theorem chirpRunAux_empty_head (outcomes : List (Except String (List RecogResult))) :
    ∀ (idx : Nat) (st : ChirpState), st.markers = [] → st.lastTs = -120 →
      (chirpRunAux idx st outcomes).markers.head? = (qualOffsetsAux idx outcomes).head? := by
  induction outcomes with
  | nil =>
    intro idx st hm hl
    rw [chirpRunAux, qualOffsetsAux, hm]
  | cons o rest ih =>
    intro idx st hm hl
    rw [chirpRunAux, qualOffsetsAux]
    obtain ⟨hhead, hempty⟩ := stepChunk_empty_head idx st o hm hl
    cases hmk : (stepChunk idx st o).markers with
    | nil =>
      have hq : qualChunk idx o = [] := by
        rw [hmk] at hhead
        exact List.head?_eq_none_iff.mp hhead.symm
      rw [hq, List.nil_append]
      exact ih (idx + 1) (stepChunk idx st o) hmk (hempty hmk)
    | cons s ms =>
      obtain ⟨t, ht⟩ := chirpRunAux_markers_append rest (idx + 1) (stepChunk idx st o)
      rw [ht, hmk]
      rw [hmk] at hhead
      cases hqc : qualChunk idx o with
      | nil =>
        rw [hqc] at hhead
        simp at hhead
      | cons q qs =>
        rw [hqc] at hhead
        simp only [List.head?_cons, List.cons_append] at hhead ⊢
        exact hhead

/-- C2 (amended): for every sequence of window recognition outcomes
(hence in particular those with monotonically increasing word
offsets), the emitted timestamp markers are non-decreasing in absolute
seconds, any two consecutive markers are at least 120 seconds apart, and
the first window result that carries word-level timing and a non-blank
transcript always triggers a marker, at its own absolute offset (the
-120 sentinel makes the threshold hold there, including at absolute
time 0).  The original wording without the non-blank-transcript proviso
is refuted by C2_counterexample. -/
theorem C2_amended (outcomes : List (Except String (List RecogResult))) :
    List.Chain' (fun a b => a ≤ b) (chirpRun outcomes).markers
    ∧ List.Chain' (fun a b => a + 120 ≤ b) (chirpRun outcomes).markers
    ∧ (chirpRun outcomes).markers.head? = (qualOffsets outcomes).head? := by
  have hinit1 : List.Chain' (fun a b : Int => a + 120 ≤ b) chirpInit.markers :=
    List.chain'_nil
  have hinit2 : chirpInit.markers.getLast?.getD (-120) = chirpInit.lastTs := rfl
  have hgap := chirpRunAux_minv outcomes 0 chirpInit hinit1 hinit2
  refine ⟨?_, hgap.1, ?_⟩
  · exact hgap.1.imp (fun a b h => by omega)
  · exact chirpRunAux_empty_head outcomes 0 chirpInit rfl rfl

/-- Counterexample input for C2: a single chunk whose single result
carries word timing at offset 0 but has an empty transcript. -/
def c2Outcomes : List (Except String (List RecogResult)) :=
  [Except.ok [{ alternatives := [{ transcript := "", words := [0] }] }]]

/-- Counterexample to C2 as stated: the sole (hence first) window result
carries word-level timing, yet the loop emits no marker at all, because
the empty stripped transcript short-circuits the iteration before the
timestamp check. -/
theorem C2_counterexample :
    (chirpRun c2Outcomes).markers = []
    ∧ carriesTiming { alternatives := [{ transcript := "", words := [0] }] } = true := by
  constructor
  · rfl
  · rfl



/-- Helper for C6: when every recognize call fails, the loop appends
exactly one placeholder line per chunk, in chunk order, and touches
neither last_timestamp_seconds nor the markers. -/
theorem chirpRunAux_all_errors (errs : Nat → String) :
    ∀ (n k : Nat) (st : ChirpState),
      chirpRunAux k st ((List.range' k n).map (fun i => Except.error (errs i)))
        = { st with
            lines := st.lines ++
              (List.range' k n).map
                (fun i => "[chunk " ++ toString (i + 1) ++ " failed: " ++ errs i ++ "]") } := by
  intro n
  induction n with
  | zero => intro k st; simp [chirpRunAux]
  | succ m ih =>
    intro k st
    rw [List.range'_succ]
    simp only [List.map_cons]
    rw [chirpRunAux]
    rw [ih (k + 1)]
    simp [stepChunk]

/-- Helper for C6: a placeholder line starts with the bracket character. -/
theorem ph_data (i : Nat) (e : String) :
    ∃ cs, ("[chunk " ++ toString (i + 1) ++ " failed: " ++ e ++ "]").data = '[' :: cs := by
  simp only [String.data_append]
  refine ⟨['c','h','u','n','k',' '] ++ ((toString (i + 1)).data
    ++ ([' ','f','a','i','l','e','d',':',' '] ++ (e.data ++ [']']))), ?_⟩
  simp

/-- Helper for C6: joining a non-empty line list keeps the first
character of the first line in front. -/
theorem pyJoin_head (a : String) (l : List String) (c : Char) (cs : List Char)
    (h : a.data = c :: cs) : (pyJoin "\n" (a :: l)).data.head? = some c := by
  cases l with
  | nil =>
    rw [show pyJoin "\n" [a] = a from rfl, h]
    rfl
  | cons b bs =>
    rw [show pyJoin "\n" (a :: b :: bs) = a ++ "\n" ++ pyJoin "\n" (b :: bs) from rfl]
    simp only [String.data_append, h]
    simp

/-- C6: a failed window contributes exactly one inline placeholder line
and processing continues; when every one of the numWindows recognizer
calls fails, the returned transcript is the join of the numWindows
placeholder lines, which is neither empty nor the no-speech sentinel
(and the model is total: no error is raised). -/
theorem C6_all_windows_fail (D : Nat) (errs : Nat → String) (hD : 0 < D) :
    transcribeWithChirp D (fun i => Except.error (errs i))
      = pyJoin "\n" ((List.range (numChunks D)).map
          (fun i => "[chunk " ++ toString (i + 1) ++ " failed: " ++ errs i ++ "]"))
    ∧ ((List.range (numChunks D)).map
          (fun i => "[chunk " ++ toString (i + 1) ++ " failed: " ++ errs i ++ "]")).length
        = numChunks D
    ∧ 0 < numChunks D
    ∧ transcribeWithChirp D (fun i => Except.error (errs i)) ≠ ""
    ∧ transcribeWithChirp D (fun i => Except.error (errs i)) ≠ "No speech detected in audio" := by
  have hn : 0 < numChunks D := by
    unfold numChunks chunkStarts pyRange
    rw [List.length_range']
    simp only [CHUNK_MS]
    omega
  have hrun : chirpRun ((List.range (numChunks D)).map (fun i => Except.error (errs i)))
      = { lines := (List.range (numChunks D)).map
            (fun i => "[chunk " ++ toString (i + 1) ++ " failed: " ++ errs i ++ "]"),
          lastTs := -120, markers := [] } := by
    rw [List.range_eq_range']
    rw [chirpRun, chirpRunAux_all_errors errs (numChunks D) 0 chirpInit]
    rfl
  have hne : (List.range (numChunks D)).map
      (fun i => "[chunk " ++ toString (i + 1) ++ " failed: " ++ errs i ++ "]") ≠ [] := by
    apply List.ne_nil_of_length_pos
    rw [List.length_map, List.length_range]
    exact hn
  have heq : transcribeWithChirp D (fun i => Except.error (errs i))
      = pyJoin "\n" ((List.range (numChunks D)).map
          (fun i => "[chunk " ++ toString (i + 1) ++ " failed: " ++ errs i ++ "]")) := by
    unfold transcribeWithChirp
    rw [hrun]
    simp only
    rw [if_neg hne]
  have hhead : (transcribeWithChirp D (fun i => Except.error (errs i))).data.head?
      = some '[' := by
    rw [heq]
    cases hr : List.range (numChunks D) with
    | nil =>
      exfalso
      have := congrArg List.length hr
      rw [List.length_range] at this
      simp at this
      omega
    | cons i is =>
      rw [List.map_cons]
      obtain ⟨cs, hcs⟩ := ph_data i (errs i)
      exact pyJoin_head _ _ '[' cs hcs
  refine ⟨heq, by rw [List.length_map, List.length_range], hn, ?_, ?_⟩
  · intro hcontra
    rw [hcontra] at hhead
    simp at hhead
  · intro hcontra
    rw [hcontra] at hhead
    have : ("No speech detected in audio").data.head? = some 'N' := by decide
    rw [this] at hhead
    simp at hhead

/-- Witness for C6 at a concrete input: 60 seconds of audio give two
chunks, and with every call failing the result is not the sentinel. -/
theorem C6_all_windows_fail_witness :
    transcribeWithChirp 60000 (fun _ => Except.error "boom") ≠ "No speech detected in audio" :=
  (C6_all_windows_fail 60000 (fun _ => "boom") (by decide)).2.2.2.2


/-- C3 (amended): whenever an MP3 artifact was delivered, the
transcription input covers the full recording [0, D) except in one case:
when the tier 2 compressed export itself failed (so no compressed file
exists) and the terminal split delivered the two halves, the
transcription input is only the first half [0, D/2).  The original
unconditional full-coverage claim is refuted by C3_counterexample. -/
theorem C3_amended (D : Nat) (o : EncOracle) :
    (handleAudioLadder D o).transcriptionRangeMs = (0, D)
    ∨ (o.t2 = none ∧ (handleAudioLadder D o).transcriptionRangeMs = (0, D / 2)) := by
  rcases o with ⟨t1, t2, p1, p2, s1, s2⟩
  cases t1 <;> cases t2 <;>
    simp [handleAudioLadder, tier2Attempt, tier3Split] <;>
    split_ifs <;> simp

/-- Counterexample oracle for C3: the tier 1 and the tier 2 exports both
fail, so the split delivers two parts and no compressed file exists. -/
def c3Oracle : EncOracle :=
  { t1 := none, t2 := none, p1Size := 10 * MB, p2Size := 10 * MB,
    sendT1 := false, sendT2 := false }

/-- Counterexample to C3 as stated: with both full-file exports failing,
two MP3 artifacts are delivered, yet the transcription input covers only
[0, 500000) of the 1000000 ms recording, not the full duration. -/
theorem C3_counterexample :
    (handleAudioLadder 1000000 c3Oracle).delivered.length = 2
    ∧ (handleAudioLadder 1000000 c3Oracle).transcriptionRangeMs = (0, 500000)
    ∧ (handleAudioLadder 1000000 c3Oracle).transcriptionRangeMs ≠ (0, 1000000) := by
  refine ⟨rfl, rfl, ?_⟩
  decide

/-- Helper for C4: when tier 2 fails (export error or transport
rejection), the tier 2 attempt ends in the terminal split, and the
compressed file exists exactly when the export had succeeded. -/
theorem tier2Attempt_split (D : Nat) (o : EncOracle) (h2 : o.t2 = none ∨ o.sendT2 = false) :
    tier2Attempt D o = tier3Split D o o.t2.isSome := by
  rcases o with ⟨t1, t2, p1, p2, s1, s2⟩
  simp only at h2
  rcases h2 with h2 | h2
  · subst h2
    rfl
  · subst h2
    cases t2
    · rfl
    · simp [tier2Attempt]

/-- Helper for C4 and C5: when tier 1 fails (export error, the size
check, or transport rejection), the ladder proceeds to tier 2. -/
theorem ladder_t1_fail (D : Nat) (o : EncOracle)
    (h1 : o.t1 = none ∨ ∃ sz, o.t1 = some sz ∧ (DELIVERY_CEILING < sz ∨ o.sendT1 = false)) :
    handleAudioLadder D o = tier2Attempt D o := by
  rcases o with ⟨t1, t2, p1, p2, s1, s2⟩
  simp only at h1
  rcases h1 with h1 | ⟨sz, h1, hc⟩
  · subst h1
    rfl
  · subst h1
    simp only [handleAudioLadder]
    rcases hc with hc | hc
    · rw [if_pos hc]
    · subst hc
      split_ifs with hA hB
      · rfl
      · exact hB.elim
      · rfl

/-- C4: when both tier 1 (128k) and tier 2 (64k mono) fail, the terminal
split delivers exactly 2 artifacts covering [0, D/2) and [D/2, D) (with
// the integer division of the source), contiguous, non-overlapping and
together spanning the full duration, each re-encoded at the tier 2
settings (64 kbps, mono, 44.1 kHz), captioned Part 1/2 and Part 2/2.
The statement holds for every oracle, whatever the part sizes, so no
further recursion into smaller splits ever happens. -/
theorem C4_terminal_split (D : Nat) (o : EncOracle)
    (h1 : o.t1 = none ∨ ∃ sz, o.t1 = some sz ∧ (DELIVERY_CEILING < sz ∨ o.sendT1 = false))
    (h2 : o.t2 = none ∨ o.sendT2 = false) :
    (handleAudioLadder D o).delivered.length = 2
    ∧ (handleAudioLadder D o).delivered = [part1Artifact D o.p1Size, part2Artifact D o.p2Size]
    ∧ (part1Artifact D o.p1Size).startMs = 0
    ∧ (part1Artifact D o.p1Size).endMs = D / 2
    ∧ (part2Artifact D o.p2Size).startMs = D / 2
    ∧ (part2Artifact D o.p2Size).endMs = D
    ∧ (part1Artifact D o.p1Size).enc = tier2Spec
    ∧ (part2Artifact D o.p2Size).enc = tier2Spec
    ∧ (part1Artifact D o.p1Size).captionTag = "Part 1/2"
    ∧ (part2Artifact D o.p2Size).captionTag = "Part 2/2" := by
  rw [ladder_t1_fail D o h1, tier2Attempt_split D o h2]
  exact ⟨rfl, rfl, rfl, rfl, rfl, rfl, rfl, rfl, rfl, rfl⟩

/-- Witness oracle for C4: tier 1 exceeds the ceiling, tier 2 export
fails. -/
def c4Oracle : EncOracle :=
  { t1 := some (60 * MB), t2 := none, p1Size := 40 * MB, p2Size := 41 * MB,
    sendT1 := true, sendT2 := false }

/-- Witness for C4 at a concrete oracle: exactly the two part artifacts
are delivered. -/
theorem C4_terminal_split_witness :
    (handleAudioLadder 300000 c4Oracle).delivered.length = 2
    ∧ (handleAudioLadder 300000 c4Oracle).delivered
        = [part1Artifact 300000 (40 * MB), part2Artifact 300000 (41 * MB)] :=
  ⟨(C4_terminal_split 300000 c4Oracle
      (Or.inr ⟨60 * MB, rfl, Or.inl (by decide)⟩) (Or.inl rfl)).1,
   (C4_terminal_split 300000 c4Oracle
      (Or.inr ⟨60 * MB, rfl, Or.inl (by decide)⟩) (Or.inl rfl)).2.1⟩

/-- C5: tiers are tried in order and the first success wins: a tier 1
encode error or a tier 1 size above the 45 MB ceiling moves the run to
tier 2, a fitting and accepted tier 1 artifact is delivered as the only
artifact, and in the spec scenario (tier 1 output 60 MB, tier 2 output
30 MB, ceiling 45 MB) the delivered artifact is exactly the tier 2
result and tier 3 is never entered. -/
theorem C5_first_success (D : Nat) (o : EncOracle) :
    (o.t1 = none → handleAudioLadder D o = tier2Attempt D o)
    ∧ (∀ sz, o.t1 = some sz → DELIVERY_CEILING < sz →
        handleAudioLadder D o = tier2Attempt D o)
    ∧ (∀ sz, o.t1 = some sz → sz ≤ DELIVERY_CEILING → o.sendT1 = true →
        (handleAudioLadder D o).delivered = [tier1Artifact D sz])
    ∧ (o.t1 = some (60 * MB) → o.t2 = some (30 * MB) → o.sendT2 = true →
        (handleAudioLadder D o).delivered = [tier2Artifact D (30 * MB)]
        ∧ ∀ a ∈ (handleAudioLadder D o).delivered, a.tier ≠ 3) := by
  refine ⟨?_, ?_, ?_, ?_⟩
  · intro h1
    exact ladder_t1_fail D o (Or.inl h1)
  · intro sz h1 hc
    exact ladder_t1_fail D o (Or.inr ⟨sz, h1, Or.inl hc⟩)
  · intro sz h1 hc hs
    rcases o with ⟨t1, t2, p1, p2, s1, s2⟩
    simp only at h1 hs
    subst h1
    subst hs
    simp [handleAudioLadder, Nat.not_lt.mpr hc]
  · intro h1 h2 hs
    rcases o with ⟨t1, t2, p1, p2, s1, s2⟩
    simp only at h1 h2 hs
    subst h1
    subst h2
    subst hs
    have hbig : DELIVERY_CEILING < 60 * MB := by decide
    have hres : (handleAudioLadder D
        ⟨some (60 * MB), some (30 * MB), p1, p2, s1, true⟩).delivered
          = [tier2Artifact D (30 * MB)] := by
      simp [handleAudioLadder, hbig, tier2Attempt]
    refine ⟨hres, ?_⟩
    intro a ha
    rw [hres] at ha
    simp at ha
    subst ha
    simp [tier2Artifact]

/-- Witness oracle for C5: the 60 MB / 30 MB scenario of the spec. -/
def c5Oracle : EncOracle :=
  { t1 := some (60 * MB), t2 := some (30 * MB), p1Size := 0, p2Size := 0,
    sendT1 := true, sendT2 := true }

/-- Witness for C5 at the 60 MB / 30 MB oracle: the tier 2 artifact is
the one delivered. -/
theorem C5_first_success_witness :
    (handleAudioLadder 300000 c5Oracle).delivered = [tier2Artifact 300000 (30 * MB)] :=
  ((C5_first_success 300000 c5Oracle).2.2.2 rfl rfl rfl).1

/-- Helper for C8: everything delivered from tier 2 onward has tier
marker 2 or 3, never 1. -/
theorem tier2Attempt_no_tier1 (D : Nat) (o : EncOracle) :
    ∀ a ∈ (tier2Attempt D o).delivered, a.tier ≠ 1 := by
  intro a ha
  rcases o with ⟨t1, t2, p1, p2, s1, s2⟩
  cases t2 with
  | none =>
    simp [tier2Attempt, tier3Split] at ha
    rcases ha with ha | ha <;> subst ha <;> simp [part1Artifact, part2Artifact]
  | some sz =>
    cases s2 with
    | true =>
      simp [tier2Attempt] at ha
      subst ha
      simp [tier2Artifact]
    | false =>
      simp [tier2Attempt, tier3Split] at ha
      rcases ha with ha | ha <;> subst ha <;> simp [part1Artifact, part2Artifact]

/-- C8 (amended): only the tier 1 artifact is guaranteed to satisfy the
45 MB delivery ceiling, by the explicit size check; the tier 2 artifact
and the two split artifacts are delivered without any ceiling check and
may exceed 45 MB (refuting the original claim, see C8_counterexample). -/
theorem C8_amended (D : Nat) (o : EncOracle) :
    ∀ a ∈ (handleAudioLadder D o).delivered, a.tier = 1 → a.sizeBytes ≤ DELIVERY_CEILING := by
  intro a ha htier
  rcases o with ⟨t1, t2, p1, p2, s1, s2⟩
  cases t1 with
  | none =>
    exact absurd htier (tier2Attempt_no_tier1 D ⟨none, t2, p1, p2, s1, s2⟩ a ha)
  | some sz =>
    by_cases hc : DELIVERY_CEILING < sz
    · have hlad : handleAudioLadder D ⟨some sz, t2, p1, p2, s1, s2⟩
          = tier2Attempt D ⟨some sz, t2, p1, p2, s1, s2⟩ := by
        simp [handleAudioLadder, hc]
      rw [hlad] at ha
      exact absurd htier (tier2Attempt_no_tier1 D ⟨some sz, t2, p1, p2, s1, s2⟩ a ha)
    · cases s1 with
      | true =>
        have hlad : handleAudioLadder D ⟨some sz, t2, p1, p2, true, s2⟩
            = { delivered := [tier1Artifact D sz], transcriptionRangeMs := (0, D) } := by
          simp [handleAudioLadder, hc]
        rw [hlad] at ha
        simp at ha
        subst ha
        simpa [tier1Artifact] using Nat.not_lt.mp hc
      | false =>
        have hlad : handleAudioLadder D ⟨some sz, t2, p1, p2, false, s2⟩
            = tier2Attempt D ⟨some sz, t2, p1, p2, false, s2⟩ := by
          simp [handleAudioLadder, hc]
        rw [hlad] at ha
        exact absurd htier (tier2Attempt_no_tier1 D ⟨some sz, t2, p1, p2, false, s2⟩ a ha)

/-- Witness oracle for C8: a fitting tier 1 artifact. -/
def c8OkOracle : EncOracle :=
  { t1 := some MB, t2 := none, p1Size := 0, p2Size := 0, sendT1 := true, sendT2 := false }

/-- Witness for C8 (amended): the delivered 1 MB tier 1 artifact is
within the ceiling. -/
theorem C8_amended_witness :
    (tier1Artifact 1000 MB).sizeBytes ≤ DELIVERY_CEILING :=
  C8_amended 1000 c8OkOracle (tier1Artifact 1000 MB) (by decide) rfl

/-- Counterexample oracle for C8: tier 1 yields 60 MB (fails the check),
tier 2 yields 47 MB and the transport accepts it. -/
def c8Oracle : EncOracle :=
  { t1 := some (60 * MB), t2 := some (47 * MB), p1Size := 0, p2Size := 0,
    sendT1 := true, sendT2 := true }

/-- Counterexample to C8 as stated: the delivered tier 2 artifact is
47 MB, above the 45 MB ceiling, because tier 2 performs no size check. -/
theorem C8_counterexample :
    ((handleAudioLadder 1000 c8Oracle).delivered.all
      (fun a => decide (a.sizeBytes ≤ DELIVERY_CEILING))) = false := by
  decide



/-- Helper for C9: no model succeeds exactly when every call errors. -/
theorem firstOk_none_iff (call : String → Except String String) (ms : List String) :
    firstOk call ms = none ↔ ∀ m ∈ ms, ∃ e, call m = Except.error e := by
  induction ms with
  | nil => simp [firstOk]
  | cons m rest ih =>
    cases hc : call m with
    | ok t => simp [firstOk, hc]
    | error e => simp [firstOk, hc, ih]

/-- Helper for C9: the try-each-model loop returns the stripped text of
the first successful call, and when all calls fail it fails with the
error of the last model in the list. -/
theorem tryModels_spec (call : String → Except String String) (ms : List String) :
    ∀ (le : Option String),
      (∀ t, firstOk call ms = some t → tryModelsLoop call ms le = Except.ok (pyStrip t))
      ∧ (firstOk call ms = none → ms ≠ [] →
          tryModelsLoop call ms le = Except.error (lastCallError call ms)) := by
  induction ms with
  | nil =>
    intro le
    refine ⟨?_, ?_⟩
    · intro t ht
      simp [firstOk] at ht
    · intro _ hne
      exact absurd rfl hne
  | cons m rest ih =>
    intro le
    cases hc : call m with
    | ok t0 =>
      refine ⟨?_, ?_⟩
      · intro t ht
        simp only [firstOk, hc] at ht
        simp only [Option.some.injEq] at ht
        subst ht
        simp only [tryModelsLoop, hc]
      · intro hnone _
        simp only [firstOk, hc] at hnone
        exact absurd hnone (by simp)
    | error e =>
      refine ⟨?_, ?_⟩
      · intro t ht
        simp only [firstOk, hc] at ht
        simp only [tryModelsLoop, hc]
        exact ((ih (some e)).1 t ht)
      · intro hnone _
        simp only [firstOk, hc] at hnone
        simp only [tryModelsLoop, hc]
        cases rest with
        | nil =>
          simp only [tryModelsLoop]
          rw [show lastCallError call [m] = some e from by
            rw [lastCallError]
            simp [hc]]
        | cons m2 rest2 =>
          have hres := (ih (some e)).2 hnone (by simp)
          rw [hres]
          rw [show lastCallError call (m :: m2 :: rest2) = lastCallError call (m2 :: rest2) from by
            rw [lastCallError, lastCallError, List.getLast?_cons_cons]]

/-- C9: both the summarizer and the Gemini transcriber try their ordered
model list and the first success determines the returned (stripped)
text; the aggregate failure is raised exactly when every model failed,
and it carries the last model error (lastCallError picks the error of
the final list entry). -/
theorem C9_model_fallback (callS callT : String → Except String String) :
    (∀ t, firstOk callS summaryModels = some t →
        summarizeWithGemini callS = Except.ok (pyStrip t))
    ∧ (firstOk callS summaryModels = none →
        summarizeWithGemini callS = Except.error (lastCallError callS summaryModels))
    ∧ (firstOk callS summaryModels = none
        ↔ ∀ m ∈ summaryModels, ∃ e, callS m = Except.error e)
    ∧ (∀ t, firstOk callT transcriptionModels = some t →
        transcribeWithGeminiModels callT = Except.ok (pyStrip t))
    ∧ (firstOk callT transcriptionModels = none →
        transcribeWithGeminiModels callT = Except.error (lastCallError callT transcriptionModels))
    ∧ (firstOk callT transcriptionModels = none
        ↔ ∀ m ∈ transcriptionModels, ∃ e, callT m = Except.error e) := by
  refine ⟨?_, ?_, firstOk_none_iff callS summaryModels, ?_, ?_,
    firstOk_none_iff callT transcriptionModels⟩
  · intro t ht
    exact (tryModels_spec callS summaryModels none).1 t ht
  · intro hnone
    exact (tryModels_spec callS summaryModels none).2 hnone (by simp [summaryModels])
  · intro t ht
    exact (tryModels_spec callT transcriptionModels none).1 t ht
  · intro hnone
    exact (tryModels_spec callT transcriptionModels none).2 hnone (by simp [transcriptionModels])

/-- Witness call oracle for C9: the first summary model succeeds. -/
def c9CallS : String → Except String String :=
  fun m => if m = "gemini-2.0-flash-lite" then Except.ok " hi " else Except.error "down"

/-- Witness call oracle for C9: every transcription model fails. -/
def c9CallT : String → Except String String := fun _ => Except.error "down"

/-- Witness for C9: a first-model success returns its stripped text, and
all-fail returns the last error. -/
theorem C9_model_fallback_witness :
    summarizeWithGemini c9CallS = Except.ok "hi"
    ∧ transcribeWithGeminiModels c9CallT = Except.error (some "down") := by
  constructor
  · have h := (C9_model_fallback c9CallS c9CallT).1 " hi " (by decide)
    rw [h]
    exact congrArg Except.ok (by decide)
  · have h := (C9_model_fallback c9CallS c9CallT).2.2.2.2.1 (by decide)
    rw [h]
    exact congrArg Except.error (by decide)

/-- C10: a message that is neither voice nor audio and whose document
file name has a lowercased extension outside the supported-formats list
of the respective handler makes both handlers return without any
effect: no reply, no download, no conversion. -/
theorem C10_unsupported_ignored (m : TgMessage) (name : String)
    (restB restA : List BotEffect)
    (hv : m.hasVoice = false) (ha : m.hasAudio = false) (hd : m.document = some name)
    (hb : SUPPORTED_FORMATS_bot.contains (pyLower (splitextExt name)) = false)
    (hab : SUPPORTED_FORMATS_audioBot.contains (pyLower (splitextExt name)) = false) :
    handleAudioEffectsBot m restB = [] ∧ handleAudioEffectsAudioBot m restA = [] := by
  have hbm : pyLower (splitextExt name) ∉ SUPPORTED_FORMATS_bot := by simpa using hb
  have habm : pyLower (splitextExt name) ∉ SUPPORTED_FORMATS_audioBot := by simpa using hab
  have hcb : audioChosenBot m = false := by
    rw [audioChosenBot, hv, ha, hd]
    simp [hbm]
  have hca : audioChosenAudioBot m = false := by
    rw [audioChosenAudioBot, hv, ha, hd]
    simp [habm]
  constructor
  · rw [handleAudioEffectsBot, hcb]
    simp
  · rw [handleAudioEffectsAudioBot, hca]
    simp

/-- Witness for C10 at a concrete message carrying notes.txt. -/
theorem C10_unsupported_ignored_witness :
    handleAudioEffectsBot ⟨false, false, some "notes.txt"⟩ [] = []
    ∧ handleAudioEffectsAudioBot ⟨false, false, some "notes.txt"⟩ [] = [] :=
  C10_unsupported_ignored ⟨false, false, some "notes.txt"⟩ "notes.txt" [] []
    rfl rfl rfl (by decide) (by decide)

